import Mathlib

/-!
Shallow embedding of the name-resolution (binding) pass of `xykpy`:
the diagnostics model (`src/error.rs`), the symbol model and merge rules
(`src/symbol.rs`), the scope arena (`src/scope.rs`), the per-scope binder
(`src/resolver/lookup.rs`) and the top-level resolver (`src/resolver.rs`).

Machine integers are modelled as `Nat`.  AST node identities
(`ast::NodeIndex`, a `u32` in the external `ast` crate) are `Nat`s; the
reserved "no node" sentinel `ast::AtomicNodeIndex::dummy().load()` is the
placeholder value `u32::MAX`, which is larger than every real node index
(real indices are assigned densely from 0 by the parser), so `Nat.min`
mirrors `ast::NodeIndex::min` on all states reachable from real inputs.
Source ranges (`text_size::TextRange`) are pairs of `Nat` offsets.
-/

namespace Xykpy

/-- `text_size::TextRange`: a half-open source span `start..stop`
(the Rust field `end` is a reserved word in Lean, hence `stop`). -/
structure TextRange where
  start : Nat
  stop : Nat
deriving DecidableEq, Repr

/-- The `Debug` rendering of a `text_size::TextRange`, as produced by the
`{:?}` format used in the conflict message: `start..stop`. -/
def TextRange.debugFormat (r : TextRange) : String :=
  toString r.start ++ ".." ++ toString r.stop

/-- `TypeError` from `src/error.rs`: one diagnostic, a source range plus a
message. -/
structure TypeError where
  range : TextRange
  message : String
deriving DecidableEq, Repr

/-- `Errors` from `src/error.rs`: a diagnostics tree.  `Many` is intended
to hold no `AllGood` element (documented invariant in the source). -/
inductive Errors where
  | AllGood : Errors
  | Single : TypeError → Errors
  | Many : List Errors → Errors
deriving Repr

/-- `matches!(error, Errors::AllGood)` from `ErrorsBuilder::add`. -/
def Errors.isAllGood : Errors → Bool
  | .AllGood => true
  | _ => false

/-- The state of an `ErrorsBuilder` (`src/error.rs`): its `errors` vector. -/
abbrev ErrorsBuilder : Type := List Errors

/-- `ErrorsBuilder::new`. -/
def ErrorsBuilder.new : ErrorsBuilder := []

/-- `ErrorsBuilder::add`: drop `AllGood`, push anything else. -/
def ErrorsBuilder.add (b : ErrorsBuilder) (e : Errors) : ErrorsBuilder :=
  if e.isAllGood then b else b ++ [e]

/-- `ErrorsBuilder::build`: collapse to `AllGood`, the single element, or
a `Many` list. -/
def ErrorsBuilder.build (b : ErrorsBuilder) : Errors :=
  match b with
  | [] => .AllGood
  | [e] => e
  | es => .Many es

theorem errSizeOf_append (l₁ l₂ : List Errors) :
    sizeOf (l₁ ++ l₂) + 1 = sizeOf l₁ + sizeOf l₂ := by
  induction l₁ with
  | nil => simp; omega
  | cons e l ih => simp; omega

/-- The loop of `ErrorsIter::next` (`src/error.rs`), run to exhaustion:
pop the top of the stack, skip `AllGood`, yield a `Single`, and push the
children of a `Many` (the Rust pushes them reversed onto a pop-from-the-back
stack, which is the same as processing them front-first, i.e. prepending). -/
def errDrain : List Errors → List TypeError
  | [] => []
  | .AllGood :: rest => errDrain rest
  | .Single e :: rest => e :: errDrain rest
  | .Many es :: rest => errDrain (es ++ rest)
termination_by l => sizeOf l
decreasing_by
  · simp
  · simp
  · have h := errSizeOf_append es rest
    simp
    omega

/-- `Errors::into_iter` collected into a list: the flattening of one
diagnostics tree. -/
def Errors.flatten (e : Errors) : List TypeError := errDrain [e]

/-- The concatenation, in order, of the flattenings of a list of
diagnostics trees. -/
def flattenList (l : List Errors) : List TypeError :=
  l.foldr (fun e acc => e.flatten ++ acc) []

/-- `SymbolKind` from `src/symbol.rs`. -/
inductive SymbolKind where
  | Class : SymbolKind
  | Alias : SymbolKind
  | Variable : SymbolKind
  | Function : SymbolKind
  | Nonlocal : SymbolKind
deriving DecidableEq, Repr

/-- The `Display` implementation for `SymbolKind` (`src/symbol.rs`). -/
def SymbolKind.display : SymbolKind → String
  | .Class => "class"
  | .Alias => "type alias"
  | .Variable => "variable"
  | .Function => "function"
  | .Nonlocal => "nonlocal"

/-- `no_node_index()` from `src/symbol.rs`: the reserved "no node"
sentinel, `ast::AtomicNodeIndex::dummy().load()` in the external `ast`
crate, i.e. the `u32::MAX` placeholder — above every real node index. -/
def noNodeIndex : Nat := 4294967295

/-- `Symbol` from `src/symbol.rs`.  `scope` holds the numeric value of the
owning `ScopeId` (a `NonZeroU16`), `name`/`decl`/`defn` hold node
identities. -/
structure Symbol where
  kind : SymbolKind
  scope : Nat
  name : Nat
  name_range : TextRange
  decl : Nat
  defn : Nat
deriving DecidableEq, Repr

/-- Placeholder used for (never-taken) out-of-bounds arena reads, where
the Rust indexing would panic. -/
def defaultSymbol : Symbol :=
  { kind := .Variable, scope := 0, name := 0,
    name_range := { start := 0, stop := 0 },
    decl := noNodeIndex, defn := noNodeIndex }

/-- `Symbol::is_decl` (`src/symbol.rs`). -/
def Symbol.is_decl (s : Symbol) : Bool :=
  s.decl != noNodeIndex

/-- `Symbol::merge` (`src/symbol.rs`): the (replacement, conflict) pair
for rebinding a name in one scope, `self` being the earlier symbol. -/
def Symbol.merge (self later : Symbol) : Option Symbol × Bool :=
  match self.kind, later.kind with
  | .Variable, .Variable =>
      let conflict := self.is_decl && later.is_decl
      let decl := if self.is_decl || !later.is_decl then self else later
      let defn := Nat.min self.defn later.defn
      (some { decl with defn := defn }, conflict)
  | .Variable, .Nonlocal => (some later, self.is_decl)
  | .Nonlocal, .Variable => (none, self.is_decl)
  | _, _ => (none, true)

/-- `DeclOrDefn` from `src/symbol.rs`, already reduced to the carried
node's identity (`node.node_index().load()`). -/
inductive DeclOrDefn where
  | Decl : Nat → DeclOrDefn
  | Defn : Nat → DeclOrDefn
  | DeclAndDefn : Nat → DeclOrDefn
deriving DecidableEq, Repr

/-- The parts of an `ast::Identifier` / `ast::ExprName` the binder uses:
its node identity, source range, and interned name string (`id()`). -/
structure Ident where
  node : Nat
  range : TextRange
  id : String
deriving DecidableEq, Repr

/-- `Symbol::make` (`src/symbol.rs`). -/
def Symbol.make (kind : SymbolKind) (scope : Nat) (name : Ident)
    (decl_defn : DeclOrDefn) : Symbol :=
  match decl_defn with
  | .Decl node =>
      { kind := kind, scope := scope, name := name.node,
        name_range := name.range, decl := node, defn := noNodeIndex }
  | .Defn node =>
      { kind := kind, scope := scope, name := name.node,
        name_range := name.range, decl := noNodeIndex, defn := node }
  | .DeclAndDefn node =>
      { kind := kind, scope := scope, name := name.node,
        name_range := name.range, decl := node, defn := node }

/-- `ScopeId::from_index` (`src/scope.rs`): the id is `index + 1` stored
in a `NonZeroU16`; both conversion failures (`usize → u16` and the `+ 1`
overflowing to zero) are `expect` panics, modelled as `none`. -/
def ScopeId.from_index (index : Nat) : Option Nat :=
  if index < 65535 then some (index + 1) else none

/-- `ScopeId::into_index` (`src/scope.rs`). -/
def ScopeId.into_index (id : Nat) : Nat := id - 1

/-- `Scope` from `src/scope.rs`.  The `HashSet<SymbolId>` member set is a
duplicate-free list (insertion checks membership). -/
structure Scope where
  node : Nat
  parent : Option Nat
  children : List Nat
  symbols : List Nat
deriving DecidableEq, Repr

/-- Placeholder used for (never-taken) out-of-bounds scope reads, where
the Rust indexing would panic. -/
def defaultScope : Scope :=
  { node := 0, parent := none, children := [], symbols := [] }

/-- `HashSet::insert` on a scope's member set: returns the new scope and
whether the id was newly inserted. -/
def Scope.insertSymbol (s : Scope) (symbol : Nat) : Scope × Bool :=
  if symbol ∈ s.symbols then (s, false)
  else ({ s with symbols := s.symbols ++ [symbol] }, true)

/-- `ScopeTable` from `src/scope.rs`. -/
structure ScopeTable where
  root_id : Nat
  scopes : List Scope
deriving DecidableEq, Repr

/-- `ScopeTable::new` (`src/scope.rs`): one root scope at index 0, so
`root_id = from_index 0 = 1`. -/
def ScopeTable.new (root_node : Nat) : ScopeTable :=
  { root_id := 1,
    scopes := [{ node := root_node, parent := none, children := [],
                 symbols := [] }] }

/-- `ScopeTable::make_scope` (`src/scope.rs`): append a child scope; the
capacity overflow of `ScopeId::from_index` is a panic, modelled as
`none`. -/
def ScopeTable.make_scope (t : ScopeTable) (node : Nat) (parent : Nat) :
    Option (ScopeTable × Nat) :=
  match ScopeId.from_index t.scopes.length with
  | some id =>
      some ({ t with
                scopes := t.scopes ++
                  [{ node := node, parent := some parent, children := [],
                     symbols := [] }] },
            id)
  | none => none

/-- `ScopeTable::get` (`src/scope.rs`): `O(1)` lookup by id (the Rust
indexing panics out of bounds; issued ids are always in bounds). -/
def ScopeTable.get (t : ScopeTable) (id : Nat) : Scope :=
  t.scopes.getD (ScopeId.into_index id) defaultScope

/-- `ScopeTable::add_symbol` (`src/scope.rs`): insert a `SymbolId` into
the member set of the scope (the Rust indexing panics on an un-issued id,
modelled as a no-op never reached from issued ids). -/
def ScopeTable.add_symbol (t : ScopeTable) (scope : Nat) (symbol : Nat) :
    ScopeTable × Bool :=
  let idx := ScopeId.into_index scope
  if idx < t.scopes.length then
    let sb := (t.scopes.getD idx defaultScope).insertSymbol symbol
    ({ t with scopes := t.scopes.set idx sb.1 }, sb.2)
  else (t, false)

/-- The parts of an `ast::Expr` that the binder inspects: either a plain
name (`ast::ExprName`) or any other expression shape, of which only the
range is used (for the "only name targets are supported" diagnostic). -/
inductive Expr where
  | Name : Ident → Expr
  | Other : Nat → TextRange → Expr
deriving DecidableEq, Repr

/-- The statement shapes `ScopeLoopkupBuilder::add_stmt`
(`src/resolver/lookup.rs`) distinguishes.  A `TypeAlias` name is always a
plain name: the source marks every other shape `unreachable!` because the
grammar only produces names there.  `Other` covers every unmatched
statement kind (the final `_ => {}` arm). -/
inductive Stmt where
  | ClassDef : Nat → Ident → Stmt
  | TypeAlias : Nat → Ident → Stmt
  | Assign : Nat → TextRange → List Expr → Stmt
  | AnnAssign : Nat → Expr → Bool → Stmt
  | FunctionDef : Nat → Ident → Stmt
  | Nonlocal : Nat → List Ident → Stmt
  | Other : Stmt
deriving DecidableEq, Repr

/-- `HashMap` lookup on the binder's name → `SymbolId` map, modelled as
first-match search in an association list (keys are unique because an
entry is only inserted when vacant). -/
def lookupFind (m : List (String × Nat)) (k : String) : Option Nat :=
  match m with
  | [] => none
  | e :: rest => if e.1 = k then some e.2 else lookupFind rest k

/-- The state threaded through `ScopeLoopkupBuilder`
(`src/resolver/lookup.rs`): the symbol arena, the scope table, the
diagnostics builder, the target scope id and the scope-local name map
(the `&mut` borrows become explicit state). -/
structure ScopeLoopkupBuilder where
  symbols : List Symbol
  scopes : ScopeTable
  errors : ErrorsBuilder
  scope_id : Nat
  lookup : List (String × Nat)
deriving Repr

/-- The message built by the `format!` in `ScopeLoopkupBuilder::add_symbol`
for a merge conflict. -/
def conflictMessage (incoming previous : Symbol) : String :=
  incoming.kind.display ++ " definition conflicts with earlier " ++
    previous.kind.display ++ " definition at " ++
    previous.name_range.debugFormat

/-- `ScopeLoopkupBuilder::add_symbol` (`src/resolver/lookup.rs`): the
uniform "bind name" operation. -/
def ScopeLoopkupBuilder.add_symbol (st : ScopeLoopkupBuilder)
    (kind : SymbolKind) (name : Ident) (decl_defn : DeclOrDefn) :
    ScopeLoopkupBuilder :=
  let symbol := Symbol.make kind st.scope_id name decl_defn
  match lookupFind st.lookup name.id with
  | none =>
      let id := st.symbols.length
      { st with
          symbols := st.symbols ++ [symbol],
          scopes := (st.scopes.add_symbol st.scope_id id).1,
          lookup := st.lookup ++ [(name.id, id)] }
  | some id =>
      let previous := st.symbols.getD id defaultSymbol
      let mc := previous.merge symbol
      let errors :=
        if mc.2 then
          st.errors.add (Errors.Single
            { range := symbol.name_range,
              message := conflictMessage symbol previous })
        else st.errors
      let symbols :=
        match mc.1 with
        | some merged => st.symbols.set id merged
        | none => st.symbols
      { st with symbols := symbols, errors := errors }

/-- `ScopeLoopkupBuilder::add_stmt` (`src/resolver/lookup.rs`). -/
def ScopeLoopkupBuilder.add_stmt (st : ScopeLoopkupBuilder) (stmt : Stmt) :
    ScopeLoopkupBuilder :=
  match stmt with
  | .ClassDef node name => st.add_symbol .Class name (.Decl node)
  | .TypeAlias node name => st.add_symbol .Alias name (.Decl node)
  | .Assign node range targets =>
      match targets with
      | [target] =>
          match target with
          | .Name name => st.add_symbol .Variable name (.Defn node)
          | .Other _ r =>
              { st with
                  errors := st.errors.add (Errors.Single
                    { range := r,
                      message := "only name targets are supported" }) }
      | _ =>
          { st with
              errors := st.errors.add (Errors.Single
                { range := range,
                  message := "only single target assignments are support" }) }
  | .AnnAssign node target hasValue =>
      match target with
      | .Name name =>
          if hasValue then st.add_symbol .Variable name (.DeclAndDefn node)
          else st.add_symbol .Variable name (.Decl node)
      | .Other _ r =>
          { st with
              errors := st.errors.add (Errors.Single
                { range := r,
                  message := "only name targets are supported" }) }
  | .FunctionDef node name => st.add_symbol .Function name (.Decl node)
  | .Nonlocal node names =>
      names.foldl (fun s name => s.add_symbol .Nonlocal name (.Decl node)) st
  | .Other => st

/-- `ScopeLoopkupBuilder::add_block` (`src/resolver/lookup.rs`). -/
def ScopeLoopkupBuilder.add_block (st : ScopeLoopkupBuilder)
    (stmts : List Stmt) : ScopeLoopkupBuilder :=
  stmts.foldl ScopeLoopkupBuilder.add_stmt st

/-- The builder state `Resolver::run` starts with: fresh arenas, the root
scope, an empty diagnostics builder and an empty scope-local map. -/
def initialBuilder (root_node : Nat) : ScopeLoopkupBuilder :=
  { symbols := [], scopes := ScopeTable.new root_node, errors := [],
    scope_id := (ScopeTable.new root_node).root_id, lookup := [] }

/-- The parts of an `ast::ModModule` the resolver uses. -/
structure ModModule where
  node_index : Nat
  body : List Stmt
deriving Repr

/-- `Resolution` from `src/resolver.rs`: the symbol arena, the scope
tree, and the node-identity → `SymbolId` map. -/
structure Resolution where
  symbols : List Symbol
  scopes : ScopeTable
  nodes : List (Nat × Nat)
deriving Repr

/-- `Outcome<T>` from `src/error.rs`. -/
structure Outcome (T : Type) where
  value : T
  errors : Errors

/-- `Resolver` from `src/resolver.rs` (the `env` field is never used by
`run` and is omitted). -/
structure Resolver where
  module : ModModule
  resolution : Resolution
  errors : ErrorsBuilder

/-- `Resolver::new` (`src/resolver.rs`): empty arenas, a scope tree
rooted at the module node, an empty node map, an empty diagnostics
builder. -/
def Resolver.new (module : ModModule) : Resolver :=
  { module := module,
    resolution :=
      { symbols := [], scopes := ScopeTable.new module.node_index,
        nodes := [] },
    errors := [] }

/-- `Resolver::run` (`src/resolver.rs`): run the scope binder over the
module body in the root scope and return
`Outcome::mixed(resolution, errors)` (the `ErrorsBuilder` converts to
`Errors` through `build`).  The binder mutates only the symbol arena, the
scope table and the diagnostics; the `nodes` map is returned as it was. -/
def Resolver.run (r : Resolver) : Outcome Resolution :=
  let builder : ScopeLoopkupBuilder :=
    { symbols := r.resolution.symbols, scopes := r.resolution.scopes,
      errors := r.errors, scope_id := r.resolution.scopes.root_id,
      lookup := [] }
  let builder := builder.add_block r.module.body
  { value :=
      { symbols := builder.symbols, scopes := builder.scopes,
        nodes := r.resolution.nodes },
    errors := builder.errors.build }

theorem errDrain_append (l₁ l₂ : List Errors) :
    errDrain (l₁ ++ l₂) = errDrain l₁ ++ errDrain l₂ :=
  match l₁ with
  | [] => by simp [errDrain]
  | .AllGood :: rest => by
      rw [List.cons_append, errDrain, errDrain]
      exact errDrain_append rest l₂
  | .Single e :: rest => by
      rw [List.cons_append, errDrain, errDrain, List.cons_append]
      rw [errDrain_append rest l₂]
  | .Many es :: rest => by
      rw [List.cons_append, errDrain, errDrain, ← List.append_assoc]
      exact errDrain_append (es ++ rest) l₂
termination_by sizeOf l₁
decreasing_by
  · simp
  · simp
  · have h := errSizeOf_append es rest
    simp
    omega

theorem flattenList_cons (e : Errors) (l : List Errors) :
    flattenList (e :: l) = e.flatten ++ flattenList l := rfl

theorem errDrain_eq_flattenList (l : List Errors) :
    errDrain l = flattenList l := by
  induction l with
  | nil => simp [errDrain, flattenList]
  | cons e rest ih =>
      have h2 : errDrain (e :: rest) = errDrain [e] ++ errDrain rest :=
        errDrain_append [e] rest
      rw [h2, ih, flattenList_cons]
      rfl

theorem foldl_add_eq_filter (adds : List Errors) (b : ErrorsBuilder) :
    adds.foldl ErrorsBuilder.add b = b ++ adds.filter (fun e => !e.isAllGood) := by
  induction adds generalizing b with
  | nil => simp
  | cons e rest ih =>
      rw [List.foldl_cons, ih]
      by_cases h : e.isAllGood
      · simp [ErrorsBuilder.add, h]
      · simp [ErrorsBuilder.add, h]

theorem isAllGood_eq_true (e : Errors) (h : e.isAllGood = true) : e = .AllGood := by
  cases e <;> simp [Errors.isAllGood] at h ⊢

theorem flattenList_filter (l : List Errors) :
    flattenList (l.filter (fun e => !e.isAllGood)) = flattenList l := by
  induction l with
  | nil => rfl
  | cons e rest ih =>
      by_cases h : e.isAllGood
      · have he := isAllGood_eq_true e h
        subst he
        simp [flattenList_cons, h, ih, Errors.flatten, errDrain]
      · simp [flattenList_cons, h, ih]

theorem build_flatten (b : ErrorsBuilder) :
    (ErrorsBuilder.build b).flatten = flattenList b := by
  match b with
  | [] => simp [ErrorsBuilder.build, Errors.flatten, errDrain, flattenList]
  | [e] => simp [ErrorsBuilder.build, flattenList_cons, flattenList]
  | e1 :: e2 :: rest =>
      show (Errors.Many (e1 :: e2 :: rest)).flatten = _
      unfold Errors.flatten
      simp only [errDrain]
      rw [show (e1 :: e2 :: rest) ++ [] = e1 :: e2 :: rest from by simp]
      exact errDrain_eq_flattenList _

/-- C6: for every sequence of `add` calls on an `ErrorsBuilder`, `build()`
returns `AllGood` when no non-empty error was added, returns the single
added non-empty error itself (not wrapped in `Many`) when exactly one was
added, and otherwise returns a `Many` list containing no empty
(`AllGood`) element; and flattening the result via `into_iter` yields
every `TypeError` exactly once, depth-first, in the order the errors were
added at each level (the flattening of the built tree equals the ordered
concatenation of the flattenings of the added trees). -/
theorem errors_builder_build_spec (adds : List Errors) :
    (adds.foldl ErrorsBuilder.add ErrorsBuilder.new).build =
      (match adds.filter (fun e => !e.isAllGood) with
       | [] => Errors.AllGood
       | [e] => e
       | es => Errors.Many es) ∧
    (adds.filter (fun e => !e.isAllGood)).all (fun e => !e.isAllGood) = true ∧
    ((adds.foldl ErrorsBuilder.add ErrorsBuilder.new).build).flatten =
      flattenList adds := by
  refine ⟨?_, ?_, ?_⟩
  · rw [foldl_add_eq_filter]
    rfl
  · simp [List.all_eq_true]
  · rw [build_flatten, foldl_add_eq_filter]
    exact flattenList_filter adds

/-- C1: for two symbols `previous` and `incoming`, both of kind
`Variable` and bound to the same name in one scope, `merge` reports a
conflict iff both already carry a decl node; the replacement keeps the
decl-carrying side's fields (`previous` when it has a decl or `incoming`
has none, otherwise `incoming`) with `defn` the minimum of the two
symbols' `defn` node identities; and a replacement is always produced
for this pairing. -/
theorem merge_variable_variable (previous incoming : Symbol)
    (hp : previous.kind = SymbolKind.Variable)
    (hi : incoming.kind = SymbolKind.Variable)
    (hname : previous.name = incoming.name)
    (hscope : previous.scope = incoming.scope) :
    previous.merge incoming =
      (some { (if previous.is_decl || !incoming.is_decl then previous
               else incoming) with
                defn := Nat.min previous.defn incoming.defn },
       previous.is_decl && incoming.is_decl) := by
  simp [Symbol.merge, hp, hi]

/-- Witness for C1: a decl-carrying `previous` merged with a defn-only
`incoming` keeps `previous`'s fields, takes the incoming `defn`, and does
not conflict. -/
theorem merge_variable_variable_witness :
    (Symbol.mk .Variable 1 2 ⟨0, 1⟩ 5 noNodeIndex).merge
        (Symbol.mk .Variable 1 2 ⟨4, 5⟩ noNodeIndex 7) =
      (some (Symbol.mk .Variable 1 2 ⟨0, 1⟩ 5 7), false) := by
  have h := merge_variable_variable
      (Symbol.mk .Variable 1 2 ⟨0, 1⟩ 5 noNodeIndex)
      (Symbol.mk .Variable 1 2 ⟨4, 5⟩ noNodeIndex 7) rfl rfl rfl rfl
  rw [h]
  decide

/-- C3: binding `x: int` (node 1, decl-only) then `x = 1` (node 3,
defn-only) in one scope yields no conflict, and the merged arena entry
for `x` has `decl` the annotated assignment's node identity and `defn`
the plain assignment's node identity, both distinct from the reserved
no-node sentinel. -/
theorem annassign_then_assign_merge :
    ((initialBuilder 0).add_stmt
        (Stmt.AnnAssign 1 (Expr.Name ⟨2, ⟨0, 1⟩, "x"⟩) false)).add_stmt
        (Stmt.Assign 3 ⟨10, 15⟩ [Expr.Name ⟨4, ⟨10, 11⟩, "x"⟩]) =
      { symbols := [⟨.Variable, 1, 2, ⟨0, 1⟩, 1, 3⟩],
        scopes := { root_id := 1,
                    scopes := [{ node := 0, parent := none, children := [],
                                 symbols := [0] }] },
        errors := [],
        scope_id := 1,
        lookup := [("x", 0)] } ∧
    (Symbol.mk .Variable 1 2 ⟨0, 1⟩ 1 3).decl ≠ noNodeIndex ∧
    (Symbol.mk .Variable 1 2 ⟨0, 1⟩ 1 3).defn ≠ noNodeIndex :=
  ⟨rfl, by decide, by decide⟩

/-- C2 counterexample: binding `nonlocal x` first (a Nonlocal symbol,
which always carries a decl node) and then `x = 1` makes the binder emit
a conflict diagnostic, refuting the claim's "in the reversed order there
is also no conflict". -/
theorem nonlocal_then_assign_conflict_counterexample :
    (((initialBuilder 0).add_stmt
        (Stmt.Nonlocal 1 [⟨2, ⟨8, 9⟩, "x"⟩])).add_stmt
        (Stmt.Assign 3 ⟨10, 15⟩ [Expr.Name ⟨4, ⟨10, 11⟩, "x"⟩])).errors =
      [Errors.Single
        { range := ⟨10, 11⟩,
          message := "variable definition conflicts with earlier nonlocal definition at 8..9" }] ∧
    (((initialBuilder 0).add_stmt
        (Stmt.Nonlocal 1 [⟨2, ⟨8, 9⟩, "x"⟩])).add_stmt
        (Stmt.Assign 3 ⟨10, 15⟩ [Expr.Name ⟨4, ⟨10, 11⟩, "x"⟩])).errors.length = 1 :=
  ⟨rfl, rfl⟩

/-- C2 amended: binding `x = 1` (defn-only Variable) then `nonlocal x`
yields no conflict and the arena entry for `x` becomes the Nonlocal
symbol; in the reversed order the binder emits exactly one conflict
diagnostic (the Nonlocal symbol carries a decl node) and the arena entry
remains the Nonlocal symbol. -/
theorem variable_nonlocal_merge_orders :
    ((initialBuilder 0).add_stmt
        (Stmt.Assign 1 ⟨0, 5⟩ [Expr.Name ⟨2, ⟨0, 1⟩, "x"⟩])).add_stmt
        (Stmt.Nonlocal 3 [⟨4, ⟨14, 15⟩, "x"⟩]) =
      { symbols := [⟨.Nonlocal, 1, 4, ⟨14, 15⟩, 3, noNodeIndex⟩],
        scopes := { root_id := 1,
                    scopes := [{ node := 0, parent := none, children := [],
                                 symbols := [0] }] },
        errors := [],
        scope_id := 1,
        lookup := [("x", 0)] } ∧
    ((initialBuilder 0).add_stmt
        (Stmt.Nonlocal 1 [⟨2, ⟨8, 9⟩, "x"⟩])).add_stmt
        (Stmt.Assign 3 ⟨10, 15⟩ [Expr.Name ⟨4, ⟨10, 11⟩, "x"⟩]) =
      { symbols := [⟨.Nonlocal, 1, 2, ⟨8, 9⟩, 1, noNodeIndex⟩],
        scopes := { root_id := 1,
                    scopes := [{ node := 0, parent := none, children := [],
                                 symbols := [0] }] },
        errors := [Errors.Single
          { range := ⟨10, 11⟩,
            message := "variable definition conflicts with earlier nonlocal definition at 8..9" }],
        scope_id := 1,
        lookup := [("x", 0)] } :=
  ⟨rfl, rfl⟩

/-- C4: running the binder over `class A: pass`, `x: int`, `x = 5`,
`def A(): pass` in one scope yields exactly one diagnostic (the
Function-vs-earlier-Class conflict for `A`), the arena entry for `A`
retains the Class symbol's decl/defn (no replacement for that pairing),
and the arena entry for `x` has no conflict with both decl and defn
set. -/
theorem end_to_end_example :
    (initialBuilder 0).add_block
        [Stmt.ClassDef 1 ⟨2, ⟨6, 7⟩, "A"⟩,
         Stmt.AnnAssign 3 (Expr.Name ⟨4, ⟨14, 15⟩, "x"⟩) false,
         Stmt.Assign 5 ⟨22, 27⟩ [Expr.Name ⟨6, ⟨22, 23⟩, "x"⟩],
         Stmt.FunctionDef 7 ⟨8, ⟨32, 33⟩, "A"⟩] =
      { symbols := [⟨.Class, 1, 2, ⟨6, 7⟩, 1, noNodeIndex⟩,
                    ⟨.Variable, 1, 4, ⟨14, 15⟩, 3, 5⟩],
        scopes := { root_id := 1,
                    scopes := [{ node := 0, parent := none, children := [],
                                 symbols := [0, 1] }] },
        errors := [Errors.Single
          { range := ⟨32, 33⟩,
            message := "function definition conflicts with earlier class definition at 6..7" }],
        scope_id := 1,
        lookup := [("A", 0), ("x", 1)] } ∧
    flattenList ((initialBuilder 0).add_block
        [Stmt.ClassDef 1 ⟨2, ⟨6, 7⟩, "A"⟩,
         Stmt.AnnAssign 3 (Expr.Name ⟨4, ⟨14, 15⟩, "x"⟩) false,
         Stmt.Assign 5 ⟨22, 27⟩ [Expr.Name ⟨6, ⟨22, 23⟩, "x"⟩],
         Stmt.FunctionDef 7 ⟨8, ⟨32, 33⟩, "A"⟩]).errors =
      [{ range := ⟨32, 33⟩,
         message := "function definition conflicts with earlier class definition at 6..7" }] ∧
    (Symbol.mk .Variable 1 4 ⟨14, 15⟩ 3 5).decl ≠ noNodeIndex ∧
    (Symbol.mk .Variable 1 4 ⟨14, 15⟩ 3 5).defn ≠ noNodeIndex := by
  refine ⟨rfl, ?_, by decide, by decide⟩
  show flattenList [Errors.Single
    { range := ⟨32, 33⟩,
      message := "function definition conflicts with earlier class definition at 6..7" }] = _
  simp [flattenList, Errors.flatten, errDrain]

/-- C7, evaluated at the failing input: a multi-target assignment emits
exactly one diagnostic at the assignment's range — whose message in the
code is "only single target assignments are support", not the claimed
"... are supported" — creates no symbol and no binding, and a subsequent
single-target assignment in the same block still binds. -/
theorem multi_target_assign_diagnostic :
    (initialBuilder 0).add_stmt
        (Stmt.Assign 1 ⟨0, 10⟩
          [Expr.Name ⟨2, ⟨0, 1⟩, "a"⟩, Expr.Name ⟨3, ⟨3, 4⟩, "b"⟩]) =
      { symbols := [], scopes := ScopeTable.new 0,
        errors := [Errors.Single
          { range := ⟨0, 10⟩,
            message := "only single target assignments are support" }],
        scope_id := 1, lookup := [] } ∧
    (initialBuilder 0).add_block
        [Stmt.Assign 1 ⟨0, 10⟩
          [Expr.Name ⟨2, ⟨0, 1⟩, "a"⟩, Expr.Name ⟨3, ⟨3, 4⟩, "b"⟩],
         Stmt.Assign 4 ⟨12, 17⟩ [Expr.Name ⟨5, ⟨12, 13⟩, "c"⟩]] =
      { symbols := [⟨.Variable, 1, 5, ⟨12, 13⟩, noNodeIndex, 4⟩],
        scopes := { root_id := 1,
                    scopes := [{ node := 0, parent := none, children := [],
                                 symbols := [0] }] },
        errors := [Errors.Single
          { range := ⟨0, 10⟩,
            message := "only single target assignments are support" }],
        scope_id := 1,
        lookup := [("c", 0)] } :=
  ⟨rfl, rfl⟩

/-- C10: `Resolver::run` never inserts into the node-identity → SymbolId
map: for every input module the returned `Resolution` has an empty
`nodes` map. -/
theorem resolver_run_nodes_empty (module : ModModule) :
    ((Resolver.new module).run).value.nodes = [] := rfl

theorem make_kind_eq (kind : SymbolKind) (scope : Nat) (name : Ident)
    (dd : DeclOrDefn) : (Symbol.make kind scope name dd).kind = kind := by
  cases dd <;> rfl

theorem make_range_eq (kind : SymbolKind) (scope : Nat) (name : Ident)
    (dd : DeclOrDefn) :
    (Symbol.make kind scope name dd).name_range = name.range := by
  cases dd <;> rfl

/-- C5: whenever binding a name whose merge reports a conflict, the
binder appends exactly one diagnostic whose range is the incoming
symbol's name range and whose message is
`"<incoming kind> definition conflicts with earlier <previous kind>
definition at <previous range>"`, and the arena entry under the existing
`SymbolId` is still overwritten with the merge's replacement whenever one
is returned; the scope-local map and the scope table are untouched. -/
theorem add_symbol_conflict_diagnostic (st : ScopeLoopkupBuilder)
    (kind : SymbolKind) (name : Ident) (dd : DeclOrDefn) (id : Nat)
    (hfound : lookupFind st.lookup name.id = some id)
    (hconf : ((st.symbols.getD id defaultSymbol).merge
        (Symbol.make kind st.scope_id name dd)).2 = true) :
    (st.add_symbol kind name dd).errors =
      st.errors ++ [Errors.Single
        { range := name.range,
          message := kind.display ++ " definition conflicts with earlier " ++
            (st.symbols.getD id defaultSymbol).kind.display ++
            " definition at " ++
            (st.symbols.getD id defaultSymbol).name_range.debugFormat }] ∧
    (st.add_symbol kind name dd).symbols =
      (match ((st.symbols.getD id defaultSymbol).merge
          (Symbol.make kind st.scope_id name dd)).1 with
       | some merged => st.symbols.set id merged
       | none => st.symbols) ∧
    (st.add_symbol kind name dd).lookup = st.lookup ∧
    (st.add_symbol kind name dd).scopes = st.scopes := by
  unfold ScopeLoopkupBuilder.add_symbol
  rw [hfound]
  simp only [hconf, if_true, conflictMessage, make_kind_eq, make_range_eq,
    ErrorsBuilder.add, Errors.isAllGood]
  simp

/-- Witness for C5: a second binding of `x` as a Class over an existing
Variable is a conflicting pairing with no replacement; exactly the
formatted diagnostic is appended and the arena keeps the Variable. -/
theorem add_symbol_conflict_diagnostic_witness :
    (((initialBuilder 0).add_symbol .Variable ⟨2, ⟨0, 1⟩, "x"⟩
        (.DeclAndDefn 1)).add_symbol .Class ⟨3, ⟨5, 6⟩, "x"⟩ (.Decl 4)).errors =
      [Errors.Single
        { range := ⟨5, 6⟩,
          message := "class definition conflicts with earlier variable definition at 0..1" }] ∧
    (((initialBuilder 0).add_symbol .Variable ⟨2, ⟨0, 1⟩, "x"⟩
        (.DeclAndDefn 1)).add_symbol .Class ⟨3, ⟨5, 6⟩, "x"⟩ (.Decl 4)).symbols =
      [Symbol.mk .Variable 1 2 ⟨0, 1⟩ 1 1] := by
  have h := add_symbol_conflict_diagnostic
      ((initialBuilder 0).add_symbol .Variable ⟨2, ⟨0, 1⟩, "x"⟩ (.DeclAndDefn 1))
      .Class ⟨3, ⟨5, 6⟩, "x"⟩ (.Decl 4) 0 rfl rfl
  exact ⟨h.1.trans rfl, (h.2.1).trans rfl⟩

/-- C9: converting an index below the 16-bit handle capacity (65535, the
largest count a `NonZeroU16` id can address) to a `ScopeId` and back is
the identity; `make_scope` below capacity issues a fresh id (never equal
to an already-issued id) and leaves every already-issued id resolving to
the same scope entry; and creating a scope beyond the capacity is a
fatal construction-time failure (a panic, modelled as `none`), never a
recoverable diagnostic value. -/
theorem scope_id_capacity (t : ScopeTable) (node parent idx : Nat) :
    (idx < 65535 →
       ScopeId.from_index idx = some (idx + 1) ∧
       ScopeId.into_index (idx + 1) = idx) ∧
    (t.scopes.length < 65535 →
       t.make_scope node parent =
         some ({ t with scopes := t.scopes ++
             [{ node := node, parent := some parent, children := [],
                symbols := [] }] },
           t.scopes.length + 1) ∧
       (∀ oldIdx, oldIdx < t.scopes.length →
          (({ t with scopes := t.scopes ++
               [{ node := node, parent := some parent, children := [],
                  symbols := [] }] } : ScopeTable).get (oldIdx + 1) =
             t.get (oldIdx + 1)) ∧
          t.scopes.length + 1 ≠ oldIdx + 1)) ∧
    (65535 ≤ t.scopes.length → t.make_scope node parent = none) := by
  refine ⟨fun h => ⟨?_, ?_⟩, fun h => ⟨?_, fun oldIdx hold => ⟨?_, ?_⟩⟩,
    fun h => ?_⟩
  · simp [ScopeId.from_index, h]
  · simp [ScopeId.into_index]
  · simp [ScopeTable.make_scope, ScopeId.from_index, h]
  · simp only [ScopeTable.get, ScopeId.into_index, Nat.add_sub_cancel]
    exact List.getD_append _ _ _ _ hold
  · omega
  · have hnone : ScopeId.from_index t.scopes.length = none := by
      unfold ScopeId.from_index
      rw [if_neg (by omega)]
    unfold ScopeTable.make_scope
    rw [hnone]

/-- Witness for C9: the roundtrip at index 3, a fresh scope appended to
a fresh table, and the fatal capacity overflow on a table holding 65535
scopes. -/
theorem scope_id_capacity_witness :
    (ScopeId.from_index 3 = some 4 ∧ ScopeId.into_index 4 = 3) ∧
    (ScopeTable.new 0).make_scope 7 1 =
      some ({ root_id := 1,
              scopes := [{ node := 0, parent := none, children := [],
                           symbols := [] },
                         { node := 7, parent := some 1, children := [],
                           symbols := [] }] }, 2) ∧
    ({ root_id := 1,
       scopes := List.replicate 65535 defaultScope } : ScopeTable).make_scope
        7 1 = none := by
  refine ⟨(scope_id_capacity (ScopeTable.new 0) 7 1 3).1 (by decide), ?_, ?_⟩
  · exact ((scope_id_capacity (ScopeTable.new 0) 7 1 3).2.1 (by decide)).1.trans rfl
  · have hlen : (65535 : Nat) ≤ (List.replicate 65535 defaultScope).length := by
      rw [List.length_replicate]
    exact (scope_id_capacity _ 7 1 3).2.2 hlen

theorem getD_set_self {α : Type} (l : List α) (i : Nat) (x d : α)
    (h : i < l.length) : (l.set i x).getD i d = x := by
  simp [List.getD_eq_getElem?_getD, List.getElem?_set_self h]

theorem getD_set_ne {α : Type} (l : List α) (i j : Nat) (x d : α)
    (h : i ≠ j) : (l.set i x).getD j d = l.getD j d := by
  simp [List.getD_eq_getElem?_getD, List.getElem?_set_ne h]

theorem make_scope_field (kind : SymbolKind) (scope : Nat) (name : Ident)
    (dd : DeclOrDefn) : (Symbol.make kind scope name dd).scope = scope := by
  cases dd <;> rfl

theorem merge_scope_or (p q m : Symbol) (h : (p.merge q).1 = some m) :
    m.scope = p.scope ∨ m.scope = q.scope := by
  cases hp : p.kind <;> cases hq : q.kind <;> simp [Symbol.merge, hp, hq] at h
  · by_cases hc : p.is_decl = true ∨ q.is_decl = false
    · left
      rw [← h]
      simp [hc]
    · right
      rw [← h]
      simp [hc]
  · right
    rw [← h]

theorem add_symbol_vacant (st : ScopeLoopkupBuilder) (kind : SymbolKind)
    (name : Ident) (dd : DeclOrDefn)
    (h : lookupFind st.lookup name.id = none) :
    st.add_symbol kind name dd =
      { st with
          symbols := st.symbols ++ [Symbol.make kind st.scope_id name dd],
          scopes := (st.scopes.add_symbol st.scope_id st.symbols.length).1,
          lookup := st.lookup ++ [(name.id, st.symbols.length)] } := by
  unfold ScopeLoopkupBuilder.add_symbol
  rw [h]

theorem add_symbol_occupied (st : ScopeLoopkupBuilder) (kind : SymbolKind)
    (name : Ident) (dd : DeclOrDefn) (id : Nat)
    (h : lookupFind st.lookup name.id = some id) :
    st.add_symbol kind name dd =
      { st with
          symbols :=
            (match ((st.symbols.getD id defaultSymbol).merge
                (Symbol.make kind st.scope_id name dd)).1 with
             | some merged => st.symbols.set id merged
             | none => st.symbols),
          errors :=
            (if ((st.symbols.getD id defaultSymbol).merge
                (Symbol.make kind st.scope_id name dd)).2 then
               st.errors.add (Errors.Single
                 { range := (Symbol.make kind st.scope_id name dd).name_range,
                   message := conflictMessage
                     (Symbol.make kind st.scope_id name dd)
                     (st.symbols.getD id defaultSymbol) })
             else st.errors) } := by
  unfold ScopeLoopkupBuilder.add_symbol
  rw [h]

def binderInv (st : ScopeLoopkupBuilder) : Prop :=
  st.scope_id = 1 ∧
  (∃ node m,
     st.scopes.scopes =
       [{ node := node, parent := none, children := [], symbols := m }] ∧
     (∀ symId, symId ∈ m ↔ symId < st.symbols.length)) ∧
  (∀ symId, symId < st.symbols.length →
     (st.symbols.getD symId defaultSymbol).scope = 1)

theorem binderInv_initial (root : Nat) : binderInv (initialBuilder root) := by
  refine ⟨rfl, ⟨root, [], rfl, ?_⟩, ?_⟩
  · intro symId
    simp [initialBuilder]
  · intro symId h
    simp [initialBuilder] at h

theorem binderInv_add_symbol (st : ScopeLoopkupBuilder) (kind : SymbolKind)
    (name : Ident) (dd : DeclOrDefn) (hinv : binderInv st) :
    binderInv (st.add_symbol kind name dd) := by
  obtain ⟨hsid, ⟨node, m, hscopes, hmem⟩, hsc⟩ := hinv
  cases hfind : lookupFind st.lookup name.id with
  | none =>
      rw [add_symbol_vacant st kind name dd hfind]
      refine ⟨hsid, ⟨node, m ++ [st.symbols.length], ?_, ?_⟩, ?_⟩
      · show ((st.scopes.add_symbol st.scope_id st.symbols.length).1).scopes = _
        rw [hsid]
        unfold ScopeTable.add_symbol
        rw [hscopes]
        have hnot : st.symbols.length ∉ m := by
          intro hmm
          have := (hmem _).mp hmm
          omega
        simp [ScopeId.into_index, Scope.insertSymbol, hnot]
      · intro symId
        show symId ∈ m ++ [st.symbols.length] ↔
          symId < (st.symbols ++ [Symbol.make kind st.scope_id name dd]).length
        simp [List.mem_append, hmem symId]
        omega
      · intro symId hlt
        show ((st.symbols ++ [Symbol.make kind st.scope_id name dd]).getD
          symId defaultSymbol).scope = 1
        simp only [List.length_append, List.length_cons, List.length_nil] at hlt
        rcases Nat.lt_or_ge symId st.symbols.length with hlt2 | hge
        · rw [List.getD_append _ _ _ _ hlt2]
          exact hsc symId hlt2
        · have heq : symId = st.symbols.length := by omega
          subst heq
          rw [List.getD_append_right _ _ _ _ hge]
          simp [make_scope_field, hsid]
  | some id =>
      rw [add_symbol_occupied st kind name dd id hfind]
      cases hmerge : ((st.symbols.getD id defaultSymbol).merge
          (Symbol.make kind st.scope_id name dd)).1 with
      | none =>
          simp only [hmerge]
          exact ⟨hsid, ⟨node, m, hscopes, hmem⟩, hsc⟩
      | some merged =>
          simp only [hmerge]
          refine ⟨hsid, ⟨node, m, hscopes, ?_⟩, ?_⟩
          · intro symId
            rw [List.length_set]
            exact hmem symId
          · intro symId hlt
            rw [List.length_set] at hlt
            by_cases he : id = symId
            · subst he
              by_cases hid : id < st.symbols.length
              · rw [getD_set_self _ _ _ _ hid]
                rcases merge_scope_or _ _ _ hmerge with h1 | h1
                · rw [h1]
                  exact hsc id hid
                · rw [h1, make_scope_field]
                  exact hsid
              · rw [List.set_eq_of_length_le (Nat.le_of_not_lt hid)]
                exact hsc id hlt
            · rw [getD_set_ne _ _ _ _ _ he]
              exact hsc symId hlt

theorem binderInv_fold (ops : List (SymbolKind × Ident × DeclOrDefn))
    (st : ScopeLoopkupBuilder) (h : binderInv st) :
    binderInv (ops.foldl
      (fun s op => s.add_symbol op.1 op.2.1 op.2.2) st) := by
  induction ops generalizing st with
  | nil => exact h
  | cons op rest ih => exact ih _ (binderInv_add_symbol _ _ _ _ h)

/-- C8: after any sequence of bind-name operations performed by the
scope binder (starting from the resolver's initial root-scope builder),
a `SymbolId` is in the member set of the scope stored at index `sIdx`
(whose issued id is `sIdx + 1`) iff it is a valid arena index and the
corresponding `Symbol`'s `scope` field equals that scope's id. -/
theorem scope_membership_invariant (root : Nat)
    (ops : List (SymbolKind × Ident × DeclOrDefn)) (sIdx symId : Nat) :
    symId ∈ ((ops.foldl (fun s op => s.add_symbol op.1 op.2.1 op.2.2)
        (initialBuilder root)).scopes.scopes.getD sIdx defaultScope).symbols ↔
      (symId < (ops.foldl (fun s op => s.add_symbol op.1 op.2.1 op.2.2)
          (initialBuilder root)).symbols.length ∧
       ((ops.foldl (fun s op => s.add_symbol op.1 op.2.1 op.2.2)
          (initialBuilder root)).symbols.getD symId defaultSymbol).scope =
         sIdx + 1) := by
  obtain ⟨hsid, ⟨node, m, hscopes, hmem⟩, hsc⟩ :=
    binderInv_fold ops (initialBuilder root) (binderInv_initial root)
  cases sIdx with
  | zero =>
      rw [hscopes]
      simp only [List.getD_cons_zero]
      constructor
      · intro hmm
        have hlt := (hmem symId).mp hmm
        exact ⟨hlt, hsc symId hlt⟩
      · intro hrhs
        exact (hmem symId).mpr hrhs.1
  | succ n =>
      rw [hscopes]
      simp only [List.getD_cons_succ, List.getD_nil]
      constructor
      · intro hmm
        simp [defaultScope] at hmm
      · intro hrhs
        have h1 := hsc symId hrhs.1
        rw [h1] at hrhs
        omega

end Xykpy
